import Mathlib

/-!
Verification of the robusta class-file loader and interpreter core.

The repository has two parallel implementations of the binary readers:
`src/class_file.rs` (exact readers built on `read_exact`, structured
`ConstPool` with fallible accessors) and `src/lib.rs` (inline readers built
on `Read::read`, which ignores the returned byte count, plus the linker
`insert_class` and the entry point `run`).  We embed both: namespace `CF`
models `class_file.rs`, namespace `RL` models `lib.rs`.

A byte stream is a `List Nat` of bytes (each `< 256` in any real input);
stateful reading is explicit state passing, fallible code returns `Except`.
-/

/-- Decoding / linking errors, mirroring the `anyhow` error cases of the
source: truncated input (`read_exact` failure), invalid UTF-8 from
`String::from_utf8`, the "Unimplemented tag {t}" error of `read_const`,
the pool-index error of `ConstPool::get_const`, the `expected utf8` /
`expected class` / `expected const pool item` errors, the missing-main
lookup error, and the spec's unknown-instruction error. -/
inductive Err where
  | truncated : Err
  | invalidUtf8 : Err
  | unimplementedTag : Nat → Err
  | poolIndex : Nat → Err
  | expectedUtf8 : Err
  | expectedClass : Err
  | expectedPoolItem : Err
  | mainNotFound : Err
  | unknownInstruction : Nat → Err
deriving DecidableEq, Repr

/-- Big-endian two-byte encoding of a `u16` value (helper for stating
round-trip theorems; `u16::from_be_bytes` inverts it). -/
def u16be (n : Nat) : List Nat := [n / 256 % 256, n % 256]

/-- Big-endian four-byte encoding of a `u32` value. -/
def u32be (n : Nat) : List Nat :=
  [n / 16777216 % 256, n / 65536 % 256, n / 256 % 256, n % 256]

/-- Value of a big-endian byte list, as `uN::from_be_bytes` computes it. -/
def beVal (bs : List Nat) : Nat := bs.foldl (fun a b => a * 256 + b) 0

/-- Standard UTF-8 decoding of a byte list into unicode scalar values,
modelling Rust's `String::from_utf8` validity rules (RFC 3629): no
overlong forms (so `0xC0 0x80` is rejected), no surrogate code points,
nothing above `U+10FFFF`.  Returns `none` on invalid input. -/
def utf8DecodeCore : List Nat → Option (List Nat)
  | [] => some []
  | b :: rest =>
    if b ≤ 0x7F then
      (utf8DecodeCore rest).map (fun t => b :: t)
    else if b ≤ 0xC1 then none
    else if b ≤ 0xDF then
      match rest with
      | c :: r2 =>
        if 0x80 ≤ c ∧ c ≤ 0xBF then
          (utf8DecodeCore r2).map (fun t => ((b - 0xC0) * 64 + (c - 0x80)) :: t)
        else none
      | [] => none
    else if b ≤ 0xEF then
      match rest with
      | c1 :: c2 :: r2 =>
        if ((b = 0xE0 ∧ 0xA0 ≤ c1 ∧ c1 ≤ 0xBF) ∨
            (b = 0xED ∧ 0x80 ≤ c1 ∧ c1 ≤ 0x9F) ∨
            (b ≠ 0xE0 ∧ b ≠ 0xED ∧ 0x80 ≤ c1 ∧ c1 ≤ 0xBF)) ∧
           (0x80 ≤ c2 ∧ c2 ≤ 0xBF) then
          (utf8DecodeCore r2).map
            (fun t => ((b - 0xE0) * 4096 + (c1 - 0x80) * 64 + (c2 - 0x80)) :: t)
        else none
      | _ => none
    else if b ≤ 0xF4 then
      match rest with
      | c1 :: c2 :: c3 :: r2 =>
        if ((b = 0xF0 ∧ 0x90 ≤ c1 ∧ c1 ≤ 0xBF) ∨
            (b = 0xF4 ∧ 0x80 ≤ c1 ∧ c1 ≤ 0x8F) ∨
            (b ≠ 0xF0 ∧ b ≠ 0xF4 ∧ 0x80 ≤ c1 ∧ c1 ≤ 0xBF)) ∧
           (0x80 ≤ c2 ∧ c2 ≤ 0xBF) ∧ (0x80 ≤ c3 ∧ c3 ≤ 0xBF) then
          (utf8DecodeCore r2).map
            (fun t => ((b - 0xF0) * 262144 + (c1 - 0x80) * 4096 +
                       (c2 - 0x80) * 64 + (c3 - 0x80)) :: t)
        else none
      | _ => none
    else none

/-- Rust's `String::from_utf8`: decode bytes to a string, `none` on
invalid UTF-8.  Scalar values produced by `utf8DecodeCore` are valid, so
`Char.ofNat` maps them faithfully. -/
def string_from_utf8 (bs : List Nat) : Option String :=
  (utf8DecodeCore bs).map (fun cs => String.mk (cs.map Char.ofNat))

namespace CF

/-- Models `class_file.rs read_u8`: `read_exact` into a 1-byte buffer, so a
stream with no byte left is an error. -/
def readU8 : List Nat → Except Err (Nat × List Nat)
  | [] => Except.error Err.truncated
  | b :: s => Except.ok (b, s)

/-- Models `class_file.rs read_u16`: `read_exact` into a 2-byte buffer then
`u16::from_be_bytes`. -/
def readU16 : List Nat → Except Err (Nat × List Nat)
  | b0 :: b1 :: s => Except.ok (b0 * 256 + b1, s)
  | _ => Except.error Err.truncated

/-- Models `class_file.rs read_u32`: `read_exact` into a 4-byte buffer then
`u32::from_be_bytes`. -/
def readU32 : List Nat → Except Err (Nat × List Nat)
  | b0 :: b1 :: b2 :: b3 :: s =>
      Except.ok (((b0 * 256 + b1) * 256 + b2) * 256 + b3, s)
  | _ => Except.error Err.truncated

/-- Models `class_file.rs read_length`: `read_exact` into an `n`-byte buffer:
exactly `n` bytes or a truncation error. -/
def read_length (n : Nat) (s : List Nat) : Except Err (List Nat × List Nat) :=
  if n ≤ s.length then Except.ok (s.take n, s.drop n)
  else Except.error Err.truncated

/-- Models `class_file.rs Const`: the three constant shapes the streaming reader
produces (`Utf8`, `Class`, `Unimplemented`).  The `Utf8`/`Class` payload
structs are inlined as the constructor arguments. -/
inductive Const where
  | utf8 : String → Const
  | classRef : Nat → Const
  | unimplemented : Const
deriving DecidableEq, Repr

/-- Models `class_file.rs read_const`: one tag byte, then a tag-determined
payload.  This variant recognizes only tags 1 (Utf8), 7 (Class) and
10, 12 (discarded 4-byte payloads); every other tag is the fatal
"Unimplemented tag" error. -/
def read_const (s : List Nat) : Except Err (Const × List Nat) :=
  match readU8 s with
  | Except.error e => Except.error e
  | Except.ok (tag, s) =>
    if tag = 1 then
      match readU16 s with
      | Except.error e => Except.error e
      | Except.ok (len, s) =>
        match read_length len s with
        | Except.error e => Except.error e
        | Except.ok (bs, s) =>
          match string_from_utf8 bs with
          | some str => Except.ok (Const.utf8 str, s)
          | none => Except.error Err.invalidUtf8
    else if tag = 7 then
      match readU16 s with
      | Except.error e => Except.error e
      | Except.ok (idx, s) => Except.ok (Const.classRef idx, s)
    else if tag = 10 ∨ tag = 12 then
      match readU32 s with
      | Except.error e => Except.error e
      | Except.ok (_, s) => Except.ok (Const.unimplemented, s)
    else Except.error (Err.unimplementedTag tag)

/-- Models `class_file.rs ConstPool`: the vector of decoded constants
(conceptually 1-indexed; slot `i` of the class file is `consts[i-1]`). -/
structure ConstPool where
  consts : List Const
deriving Repr

/-- Reads `n` constants in sequence (the `for _ in 1..const_pool_count`
loop body of `ConstPool::from_reader`). -/
def readConsts : Nat → List Nat → Except Err (List Const × List Nat)
  | 0, s => Except.ok ([], s)
  | n + 1, s =>
    match read_const s with
    | Except.error e => Except.error e
    | Except.ok (c, s) =>
      match readConsts n s with
      | Except.error e => Except.error e
      | Except.ok (cs, s) => Except.ok (c :: cs, s)

/-- Models `ConstPool::from_reader`: a `u16` count, then `count - 1` constants
(index 0 is unused, so the loop runs from 1). -/
def ConstPool.from_reader (s : List Nat) : Except Err (ConstPool × List Nat) :=
  match readU16 s with
  | Except.error e => Except.error e
  | Except.ok (count, s) =>
    match readConsts (count - 1) s with
    | Except.error e => Except.error e
    | Except.ok (cs, s) => Except.ok (ConstPool.mk cs, s)

/-- Models `ConstPool::get_const`: `self.consts.get(idx as usize - 1)`.  The
argument is a `u16`; the subtraction happens after the cast to `usize`,
so `idx = 0` wraps to `2^64 - 1` (release-profile wrapping semantics),
which is out of range for any real vector, and the `None` becomes the
"const pool does not have an item at index {idx}" error. -/
def ConstPool.get_const (p : ConstPool) (idx : Nat) : Except Err Const :=
  match p.consts.get? ((idx % 65536 + 18446744073709551615) % 18446744073709551616) with
  | some c => Except.ok c
  | none => Except.error (Err.poolIndex idx)

/-- Models `ConstPool::get_utf8`: `get_const` then require the `Utf8` variant. -/
def ConstPool.get_utf8 (p : ConstPool) (idx : Nat) : Except Err String :=
  match p.get_const idx with
  | Except.ok (Const.utf8 str) => Except.ok str
  | Except.ok _ => Except.error Err.expectedUtf8
  | Except.error e => Except.error e

/-- Models `ConstPool::get_class`: `get_const` then require the `Class` variant. -/
def ConstPool.get_class (p : ConstPool) (idx : Nat) : Except Err Nat :=
  match p.get_const idx with
  | Except.ok (Const.classRef nidx) => Except.ok nidx
  | Except.ok _ => Except.error Err.expectedClass
  | Except.error e => Except.error e

/-- Models `class_file.rs Attribute`: a name index and a raw payload. -/
structure Attribute where
  name_idx : Nat
  info : List Nat
deriving DecidableEq, Repr

/-- Models `Attribute::from_reader`: `u16` name index, `u32` length, then exactly
`length` raw bytes. -/
def Attribute.from_reader (s : List Nat) : Except Err (Attribute × List Nat) :=
  match readU16 s with
  | Except.error e => Except.error e
  | Except.ok (nidx, s) =>
    match readU32 s with
    | Except.error e => Except.error e
    | Except.ok (len, s) =>
      match read_length len s with
      | Except.error e => Except.error e
      | Except.ok (info, s) => Except.ok (Attribute.mk nidx info, s)

/-- The `for _ in 0..attributes_length { Attribute::from_reader(..)?; }`
loop of `Code::read_from`: parse and discard `n` attributes. -/
def skipAttributes : Nat → List Nat → Except Err (List Nat)
  | 0, s => Except.ok s
  | n + 1, s =>
    match Attribute.from_reader s with
    | Except.error e => Except.error e
    | Except.ok (_, s) => skipAttributes n s

/-- Models `class_file.rs Code`: max stack, max locals, and the bytecode.  The
source struct has exactly these three fields (the exception table is read
but not kept). -/
structure Code where
  max_stack : Nat
  max_locals : Nat
  code : List Nat
deriving DecidableEq, Repr

/-- Models `Code::read_from`: `max_stack (u16)`, `max_locals (u16)`,
`code_length (u32)`, exactly `code_length` bytecode bytes,
`ex_table_length (u16)`, `8 * ex_table_length` raw exception-table bytes
(bound to `_ex_table` and dropped), then a count-prefixed attribute list
that is parsed and discarded. -/
def Code.read_from (s : List Nat) : Except Err (Code × List Nat) :=
  match readU16 s with
  | Except.error e => Except.error e
  | Except.ok (max_stack, s) =>
    match readU16 s with
    | Except.error e => Except.error e
    | Except.ok (max_locals, s) =>
      match readU32 s with
      | Except.error e => Except.error e
      | Except.ok (code_length, s) =>
        match read_length code_length s with
        | Except.error e => Except.error e
        | Except.ok (code, s) =>
          match readU16 s with
          | Except.error e => Except.error e
          | Except.ok (ex_table_length, s) =>
            match read_length (ex_table_length * 8) s with
            | Except.error e => Except.error e
            | Except.ok (_ex_table, s) =>
              match readU16 s with
              | Except.error e => Except.error e
              | Except.ok (attributes_length, s) =>
                match skipAttributes attributes_length s with
                | Except.error e => Except.error e
                | Except.ok s => Except.ok (Code.mk max_stack max_locals code, s)

end CF

namespace RL

/-- Models `lib.rs` reads with `file.read(&mut bytes)?` into a zero-initialized
buffer and ignores the returned byte count, so a short read leaves the
tail of the buffer as zero bytes.  `readN n s` is the buffer contents and
the remaining stream: the available bytes (up to `n`) padded with zeros. -/
def readN (n : Nat) (s : List Nat) : List Nat × List Nat :=
  (s.take n ++ List.replicate (n - s.length) 0, s.drop n)

/-- Models `lib.rs read_u8`: 1-byte buffer filled by `read` (zero if the stream
is exhausted); never fails. -/
def read_u8 (s : List Nat) : Nat × List Nat := (beVal (readN 1 s).1, s.drop 1)

/-- Models `lib.rs read_u16`: 2-byte buffer filled by `read`, then
`u16::from_be_bytes`; missing bytes stay zero. -/
def read_u16 (s : List Nat) : Nat × List Nat := (beVal (readN 2 s).1, s.drop 2)

/-- Models `lib.rs read_u32`: 4-byte buffer filled by `read`, then
`u32::from_be_bytes`; missing bytes stay zero. -/
def read_u32 (s : List Nat) : Nat × List Nat := (beVal (readN 4 s).1, s.drop 4)

/-- Models `lib.rs read_length`: `vec![0; length]` filled by `read`: always
exactly `length` bytes, zero-padded when the stream is short. -/
def read_length (n : Nat) (s : List Nat) : List Nat × List Nat := readN n s

/-- Models `lib.rs Const`. -/
inductive Const where
  | utf8 : String → Const
  | classRef : Nat → Const
  | unimplemented : Const
deriving DecidableEq, Repr

/-- Models `lib.rs read_const`: one tag byte then a tag-determined payload; this
variant recognizes the full tag set `{1, 5, 6, 7, 8, 16, 3, 4, 9, 10, 11,
12, 18, 15}` (in the source's match order) and errors on any other tag.
The reads themselves cannot fail (zero-padding), so the only errors are
invalid UTF-8 and an unrecognized tag. -/
def read_const (s : List Nat) : Except Err (Const × List Nat) :=
  let (tag, s) := read_u8 s
  if tag = 1 then
    let (len, s) := read_u16 s
    let (bs, s) := read_length len s
    match string_from_utf8 bs with
    | some str => Except.ok (Const.utf8 str, s)
    | none => Except.error Err.invalidUtf8
  else if tag = 5 ∨ tag = 6 then
    let (_, s) := read_u32 s
    let (_, s) := read_u32 s
    Except.ok (Const.unimplemented, s)
  else if tag = 7 then
    let (idx, s) := read_u16 s
    Except.ok (Const.classRef idx, s)
  else if tag = 8 ∨ tag = 16 then
    let (_, s) := read_u16 s
    Except.ok (Const.unimplemented, s)
  else if tag = 3 ∨ tag = 4 ∨ tag = 9 ∨ tag = 10 ∨ tag = 11 ∨ tag = 12 ∨ tag = 18 then
    let (_, s) := read_u32 s
    Except.ok (Const.unimplemented, s)
  else if tag = 15 then
    let (_, s) := read_u8 s
    let (_, s) := read_u16 s
    Except.ok (Const.unimplemented, s)
  else Except.error (Err.unimplementedTag tag)

/-- Models `lib.rs Code`. -/
structure Code where
  max_stack : Nat
  max_locals : Nat
  code : List Nat
deriving DecidableEq, Repr

/-- Models `lib.rs Method` (pre-link): pool indices plus the decoded code. -/
structure Method where
  name_idx : Nat
  descriptor_idx : Nat
  code : Code
deriving DecidableEq, Repr

/-- Models `lib.rs ClassFile`. -/
structure ClassFile where
  const_pool : List Const
  this_class : Nat
  super_class : Nat
  methods : List Method
deriving DecidableEq, Repr

/-- The generic attribute-skipping loop of `read_class_file` (used for
field, non-`Code` method, and class-level attributes): `u16` name index,
`u32` length, `length` bytes, repeated `n` times.  Total, because the
`lib.rs` readers never fail. -/
def skipAttrs : Nat → List Nat → List Nat
  | 0, s => s
  | n + 1, s =>
    let (_, s) := read_u16 s
    let (len, s) := read_u32 s
    let (_, s) := read_length len s
    skipAttrs n s

/-- The interface-index loop: `n` discarded `u16` reads. -/
def skipU16s : Nat → List Nat → List Nat
  | 0, s => s
  | n + 1, s =>
    let (_, s) := read_u16 s
    skipU16s n s

/-- The field loop of `read_class_file`: access flags, name index,
descriptor index, then a count-prefixed attribute list, repeated `n`
times. -/
def skipFields : Nat → List Nat → List Nat
  | 0, s => s
  | n + 1, s =>
    let (_, s) := read_u16 s
    let (_, s) := read_u16 s
    let (_, s) := read_u16 s
    let (acnt, s) := read_u16 s
    let s := skipAttrs acnt s
    skipFields n s

/-- The contiguous block of reads inside the `"Code"` branch of the
per-method attribute loop (`lib.rs` lines 113-131), factored as a helper:
attribute length (`u32`, discarded), `max_stack`, `max_locals`,
`code_length`, the bytecode, the exception-table length and its `8 ×
length` raw bytes (discarded), and a count-prefixed nested-attribute list
(skipped).  Returns the `Code` the loop assigns to the method. -/
def readCodeAttr (s : List Nat) : Code × List Nat :=
  let (_, s) := read_u32 s
  let (max_stack, s) := read_u16 s
  let (max_locals, s) := read_u16 s
  let (code_length, s) := read_u32 s
  let (cb, s) := read_length code_length s
  let (ex_length, s) := read_u16 s
  let (_, s) := read_length (ex_length * 8) s
  let (acnt, s) := read_u16 s
  let s := skipAttrs acnt s
  (Code.mk max_stack max_locals cb, s)

/-- The per-method attribute loop of `read_class_file` (lines 107-139):
for each of `n` attributes, read the name index, resolve it in the pool
(`const_pool.get((name_idx - 1) as usize)`, a wrapping `u16` subtraction),
require a `Utf8` entry; if its text is `"Code"`, read the attribute
length (discarded), `max_stack`, `max_locals`, `code_length`, the
bytecode, the exception-table length and its `8 × length` raw bytes, and
a count-prefixed nested-attribute list, then overwrite the method's
running `code` value; otherwise skip the attribute generically. -/
def readMethodAttrs (pool : List Const) : Nat → Code → List Nat → Except Err (Code × List Nat)
  | 0, code, s => Except.ok (code, s)
  | n + 1, code, s =>
    let (nidx, s) := read_u16 s
    match pool.get? ((nidx % 65536 + 65535) % 65536) with
    | none => Except.error Err.expectedPoolItem
    | some (Const.utf8 b) =>
      if b = "Code" then
        let (code, s) := readCodeAttr s
        readMethodAttrs pool n code s
      else
        let (len, s) := read_u32 s
        let (_, s) := read_length len s
        readMethodAttrs pool n code s
    | some _ => Except.error Err.expectedUtf8

/-- The method loop of `read_class_file`: access flags, name index,
descriptor index, and the attribute loop starting from the zero `Code`. -/
def readMethods (pool : List Const) : Nat → List Nat → Except Err (List Method × List Nat)
  | 0, s => Except.ok ([], s)
  | n + 1, s =>
    let (_, s) := read_u16 s
    let (nidx, s) := read_u16 s
    let (didx, s) := read_u16 s
    let (acnt, s) := read_u16 s
    match readMethodAttrs pool acnt (Code.mk 0 0 []) s with
    | Except.error e => Except.error e
    | Except.ok (code, s) =>
      match readMethods pool n s with
      | Except.error e => Except.error e
      | Except.ok (ms, s) => Except.ok (Method.mk nidx didx code :: ms, s)

/-- The constant-pool loop of `read_class_file`. -/
def readConsts : Nat → List Nat → Except Err (List Const × List Nat)
  | 0, s => Except.ok ([], s)
  | n + 1, s =>
    match read_const s with
    | Except.error e => Except.error e
    | Except.ok (c, s) =>
      match readConsts n s with
      | Except.error e => Except.error e
      | Except.ok (cs, s) => Except.ok (c :: cs, s)

/-- Models `lib.rs read_class_file`: magic, minor, major, the constant pool
(`count - 1` entries), access flags, `this_class`, `super_class`, the
interface list, the field list, the method list, and the class-level
attribute list. -/
def read_class_file (s : List Nat) : Except Err ClassFile :=
  let (_, s) := read_u32 s
  let (_, s) := read_u16 s
  let (_, s) := read_u16 s
  let (const_pool_count, s) := read_u16 s
  match readConsts (const_pool_count - 1) s with
  | Except.error e => Except.error e
  | Except.ok (pool, s) =>
    let (_, s) := read_u16 s
    let (this_class, s) := read_u16 s
    let (super_class, s) := read_u16 s
    let (interface_count, s) := read_u16 s
    let s := skipU16s interface_count s
    let (field_count, s) := read_u16 s
    let s := skipFields field_count s
    let (method_count, s) := read_u16 s
    match readMethods pool method_count s with
    | Except.error e => Except.error e
    | Except.ok (methods, s) =>
      let (acnt, s) := read_u16 s
      let _ := skipAttrs acnt s
      Except.ok (ClassFile.mk pool this_class super_class methods)

/-- Models `lib.rs Method2` (post-link): resolved name, descriptor and code. -/
structure Method2 where
  name : String
  descriptor : String
  code : Code
deriving DecidableEq, Repr

/-- Models `lib.rs RuntimeClass`: resolved class name, optional shared superclass
reference (`Option<Rc<RuntimeClass>>`), and resolved methods.  Recursive
through `Option`, hence an inductive rather than a structure. -/
inductive RuntimeClass where
  | mk : String → Option RuntimeClass → List Method2 → RuntimeClass

/-- Field accessor for `RuntimeClass.this_class`. -/
def RuntimeClass.this_class : RuntimeClass → String
  | RuntimeClass.mk n _ _ => n

/-- Field accessor for `RuntimeClass.super_class`. -/
def RuntimeClass.super_class : RuntimeClass → Option RuntimeClass
  | RuntimeClass.mk _ sc _ => sc

/-- Field accessor for `RuntimeClass.methods`. -/
def RuntimeClass.methods : RuntimeClass → List Method2
  | RuntimeClass.mk _ _ ms => ms

/-- The method-resolution loop of `insert_class`: for each parsed method,
resolve its name index and descriptor index through the pool
(`get((idx - 1) as usize)`, wrapping `u16` subtraction), requiring `Utf8`
entries. -/
def resolveMethods (pool : List Const) : List Method → Except Err (List Method2)
  | [] => Except.ok []
  | m :: rest =>
    match pool.get? ((m.name_idx % 65536 + 65535) % 65536) with
    | none => Except.error Err.expectedPoolItem
    | some (Const.utf8 n) =>
      match pool.get? ((m.descriptor_idx % 65536 + 65535) % 65536) with
      | none => Except.error Err.expectedPoolItem
      | some (Const.utf8 d) =>
        match resolveMethods pool rest with
        | Except.error e => Except.error e
        | Except.ok tail => Except.ok (Method2.mk n d m.code :: tail)
      | some _ => Except.error Err.expectedUtf8
    | some _ => Except.error Err.expectedUtf8

/-- The class table: `HashMap<String, Rc<RuntimeClass>>`, modelled as an
association list where insertion prepends (so `List.lookup` sees the most
recent insertion first, matching the map's replace-on-insert). -/
def ClassTable := List (String × RuntimeClass)

/-- Models `lib.rs insert_class`: resolve `this_class` through the pool
(`get((this_class - 1) as usize)`, wrapping `u16` subtraction) to a
`Class` entry, resolve its name index to a `Utf8` entry, resolve every
method, build the `RuntimeClass` with `super_class: None`, and insert it
into the table keyed by `class.this_class` — the resolved pool string
exactly as stored, with no separator normalization. -/
def insert_class (classes : ClassTable) (cf : ClassFile) :
    Except Err (RuntimeClass × ClassTable) :=
  match cf.const_pool.get? ((cf.this_class % 65536 + 65535) % 65536) with
  | none => Except.error Err.expectedPoolItem
  | some (Const.classRef name_idx) =>
    match cf.const_pool.get? ((name_idx % 65536 + 65535) % 65536) with
    | none => Except.error Err.expectedPoolItem
    | some (Const.utf8 class_name) =>
      match resolveMethods cf.const_pool cf.methods with
      | Except.error e => Except.error e
      | Except.ok methods =>
        let class_ := RuntimeClass.mk class_name none methods
        Except.ok (class_, (class_.this_class, class_) :: classes)
    | some _ => Except.error Err.expectedUtf8
  | some _ => Except.error Err.expectedClass

/-- The main-method lookup of `lib.rs run` (lines 40-42): the first
method whose name is `"main"` and whose descriptor is
`"([Ljava/lang/String;)V"`, or the "can't find main method" error. -/
def find_main_method (c : RuntimeClass) : Except Err Method2 :=
  match c.methods.find?
      (fun m => m.name == "main" && m.descriptor == "([Ljava/lang/String;)V") with
  | some m => Except.ok m
  | none => Except.error Err.mainNotFound

/-- Modelled from the spec: the interpreter (spec §4.5) is absent from
`src/` — `lib.rs run` stops after locating the main method.  A `Frame`
carries a program counter and the method's bytecode (operand stack and
locals are irrelevant to the one implemented opcode). -/
structure Frame where
  pc : Nat
  code : List Nat
deriving DecidableEq, Repr

/-- Modelled from the spec: the fetch-decode-execute loop of §4.5.  While
the call stack is non-empty, fetch the byte at the top frame's program
counter: `0xB1` (RETURN) pops the frame; any other byte is a fatal
"unknown instruction" error carrying the opcode value; a program counter
past the end of the bytecode ends the frame.  Returns the final call
stack (empty on success). -/
def runLoop : List Frame → Except Err (List Frame)
  | [] => Except.ok []
  | f :: rest =>
    if h : f.pc < f.code.length then
      if f.code.get ⟨f.pc, h⟩ = 0xB1 then runLoop rest
      else Except.error (Err.unknownInstruction (f.code.get ⟨f.pc, h⟩))
    else runLoop rest

/-- Modelled from the spec: running a method (spec §4.5 thread creation):
one frame at program counter 0 on the method's bytecode, run to
completion. -/
def runMethod (m : Method2) : Except Err (List Frame) :=
  runLoop [Frame.mk 0 m.code.code]

/-- A method attribute as it appears on the wire, for stating theorems
about the attribute loop: either a generic attribute (name index and raw
payload) or a structurally valid `Code` attribute (name index, declared
length — which the reader discards —, max stack, max locals, bytecode;
empty exception table and no nested attributes). -/
inductive AttrItem where
  | generic : Nat → List Nat → AttrItem
  | codeAttr : Nat → Nat → Nat → Nat → List Nat → AttrItem
deriving DecidableEq, Repr

/-- Wire encoding of one attribute. -/
def encodeAttr : AttrItem → List Nat
  | AttrItem.generic nidx payload => u16be nidx ++ u32be payload.length ++ payload
  | AttrItem.codeAttr nidx declared_len ms ml cb =>
      u16be nidx ++ u32be declared_len ++ u16be ms ++ u16be ml ++
        u32be cb.length ++ cb ++ u16be 0 ++ u16be 0

/-- Wire encoding of an attribute list. -/
def encodeAttrs (items : List AttrItem) : List Nat :=
  items.foldr (fun a acc => encodeAttr a ++ acc) []

/-- The effect of one attribute on the method's running `Code` value:
a generic attribute leaves it unchanged, a `Code` attribute overwrites it. -/
def applyAttr (c : Code) : AttrItem → Code
  | AttrItem.generic _ _ => c
  | AttrItem.codeAttr _ _ ms ml cb => Code.mk ms ml cb

/-- Well-formedness of an attribute item against a pool: the fields fit
their wire widths, the name index resolves to a `Utf8` entry, and that
entry's text is `"Code"` exactly for `codeAttr` items. -/
def attrWF (pool : List Const) : AttrItem → Bool
  | AttrItem.generic nidx payload =>
      decide (1 ≤ nidx) && decide (nidx < 65536) && decide (payload.length < 4294967296) &&
      (match pool.get? (nidx - 1) with
       | some (Const.utf8 nm) => nm != "Code"
       | _ => false)
  | AttrItem.codeAttr nidx declared_len ms ml cb =>
      decide (1 ≤ nidx) && decide (nidx < 65536) && decide (declared_len < 4294967296) &&
      decide (ms < 65536) && decide (ml < 65536) && decide (cb.length < 4294967296) &&
      (match pool.get? (nidx - 1) with
       | some (Const.utf8 nm) => nm == "Code"
       | _ => false)

end RL

section ReaderLemmas

/-- Models `read_exact`-style `readU16` consumes exactly two bytes. -/
theorem CF.readU16_drop {s : List Nat} {v : Nat} {t : List Nat}
    (h : CF.readU16 s = Except.ok (v, t)) : t = s.drop 2 := by
  match s with
  | [] => simp [CF.readU16] at h
  | [b0] => simp [CF.readU16] at h
  | b0 :: b1 :: rest => simp [CF.readU16] at h; simp [h.2]

/-- Models `read_exact`-style `readU32` consumes exactly four bytes. -/
theorem CF.readU32_drop {s : List Nat} {v : Nat} {t : List Nat}
    (h : CF.readU32 s = Except.ok (v, t)) : t = s.drop 4 := by
  match s with
  | [] => simp [CF.readU32] at h
  | [_] => simp [CF.readU32] at h
  | [_, _] => simp [CF.readU32] at h
  | [_, _, _] => simp [CF.readU32] at h
  | _ :: _ :: _ :: _ :: rest => simp [CF.readU32] at h; simp [h.2]

/-- A successful `read_exact`-style `read_length` returns exactly the
requested number of bytes. -/
theorem CF.read_length_spec {n : Nat} {s bs t : List Nat}
    (h : CF.read_length n s = Except.ok (bs, t)) :
    bs.length = n ∧ t = s.drop n := by
  unfold CF.read_length at h
  split at h
  · next hle =>
      injection h with h
      injection h with h1 h2
      subst h1; subst h2
      exact ⟨List.length_take_of_le hle, rfl⟩
  · exact absurd h (by simp)

/-- Models `readU16` decodes the two-byte big-endian encoding of any `u16`. -/
theorem CF.readU16_encode (n : Nat) (h : n < 65536) (s : List Nat) :
    CF.readU16 (u16be n ++ s) = Except.ok (n, s) := by
  simp [u16be, CF.readU16]
  omega

/-- The zero-padding `read_u16` decodes the two-byte big-endian encoding
of any `u16`. -/
theorem RL.read_u16_encode (n : Nat) (h : n < 65536) (s : List Nat) :
    RL.read_u16 (u16be n ++ s) = (n, s) := by
  simp [u16be, RL.read_u16, RL.readN, beVal]
  omega

/-- The zero-padding `read_u32` decodes the four-byte big-endian encoding
of any `u32`. -/
theorem RL.read_u32_encode (n : Nat) (h : n < 4294967296) (s : List Nat) :
    RL.read_u32 (u32be n ++ s) = (n, s) := by
  simp [u32be, RL.read_u32, RL.readN, beVal]
  omega

/-- When at least `n` bytes are available, the zero-padding `readN` is an
exact read. -/
theorem RL.readN_exact (p s : List Nat) :
    RL.readN p.length (p ++ s) = (p, s) := by
  simp [RL.readN, List.take_left, List.drop_left]

end ReaderLemmas

/-- C1: the spec demands that decoding `[0x01, 0x00, 0x02]` (tag 1
claiming length 2 with no bytes following) fails, and that no read helper
zero-fills missing input.  The `class_file.rs` readers (`read_exact`)
satisfy this, but the `lib.rs` readers call `Read::read` and ignore the
returned count, so the missing text bytes stay as the buffer's zero
initialization: `lib.rs read_const` returns `Ok` with a two-NUL string on
exactly the spec's failing input. -/
theorem claims_C1 :
    RL.read_const [0x01, 0x00, 0x02]
      = Except.ok (RL.Const.utf8 (String.mk [Char.ofNat 0, Char.ofNat 0]), [])
    ∧ CF.read_const [0x01, 0x00, 0x02] = Except.error Err.truncated :=
  ⟨rfl, rfl⟩

/-- C3: running a method whose bytecode is exactly `[0xB1]` pops its
frame, leaves the call stack empty (`Except.ok []` carries the final
stack) and succeeds; a method whose single byte is anything else fails
with an unknown-instruction error naming that byte. -/
theorem claims_C3 (m : RL.Method2) :
    (m.code.code = [0xB1] → RL.runMethod m = Except.ok [])
    ∧ (∀ b, b ≠ 0xB1 → m.code.code = [b] →
        RL.runMethod m = Except.error (Err.unknownInstruction b)) := by
  constructor
  · intro h
    simp [RL.runMethod, RL.runLoop, h]
  · intro b hb h
    simp [RL.runMethod, RL.runLoop, h, hb]

/-- A method whose body is the single RETURN opcode. -/
def mC3ret : RL.Method2 :=
  RL.Method2.mk "main" "([Ljava/lang/String;)V" (RL.Code.mk 0 1 [0xB1])

/-- A method whose body is the single undefined opcode `0x00`. -/
def mC3bad : RL.Method2 :=
  RL.Method2.mk "main" "([Ljava/lang/String;)V" (RL.Code.mk 0 1 [0x00])

/-- Witness for C3 at concrete methods. -/
theorem claims_C3_witness :
    RL.runMethod mC3ret = Except.ok []
    ∧ RL.runMethod mC3bad = Except.error (Err.unknownInstruction 0) :=
  ⟨(claims_C3 mC3ret).1 rfl, (claims_C3 mC3bad).2 0 (by decide) rfl⟩

/-- C5: for a pool of `n` entries, `get_const` at any index in `[1, n]`
returns the corresponding entry (slot `i` is `consts[i-1]`), and at index
`0` or above `n` it returns the reportable pool-index error.  The `u16`
index is subtracted after the cast to `usize`, so index `0` wraps to
`2^64 - 1` (release-profile wrapping semantics), which is out of range
for any vector that fits in memory (`hlen`). -/
theorem claims_C5 (p : CF.ConstPool) (idx : Nat) (hidx : idx < 65536)
    (hlen : p.consts.length < 18446744073709551616) :
    (∀ _h1 : 1 ≤ idx, ∀ _h2 : idx ≤ p.consts.length,
        p.get_const idx = Except.ok (p.consts.get ⟨idx - 1, by omega⟩))
    ∧ (idx = 0 → p.get_const idx = Except.error (Err.poolIndex idx))
    ∧ (p.consts.length < idx → p.get_const idx = Except.error (Err.poolIndex idx)) := by
  refine ⟨?_, ?_, ?_⟩
  · intro h1 h2
    unfold CF.ConstPool.get_const
    have hi : (idx % 65536 + 18446744073709551615) % 18446744073709551616 = idx - 1 := by
      omega
    rw [hi, List.get?_eq_get (by omega)]
  · intro h0
    subst h0
    unfold CF.ConstPool.get_const
    have hi : (0 % 65536 + 18446744073709551615) % 18446744073709551616
        = 18446744073709551615 := by norm_num
    rw [hi, List.get?_eq_none.mpr (by omega)]
  · intro hgt
    unfold CF.ConstPool.get_const
    have hi : (idx % 65536 + 18446744073709551615) % 18446744073709551616 = idx - 1 := by
      omega
    rw [hi, List.get?_eq_none.mpr (by omega)]

/-- A two-entry pool for the C5 witness. -/
def poolC5 : CF.ConstPool := CF.ConstPool.mk [CF.Const.utf8 "A", CF.Const.classRef 1]

/-- Witness for C5: in-range index 1 resolves, index 0 and the
out-of-range index 3 fail. -/
theorem claims_C5_witness :
    poolC5.get_const 1 = Except.ok (CF.Const.utf8 "A")
    ∧ poolC5.get_const 0 = Except.error (Err.poolIndex 0)
    ∧ poolC5.get_const 3 = Except.error (Err.poolIndex 3) := by
  refine ⟨?_, ?_, ?_⟩
  · exact (claims_C5 poolC5 1 (by decide) (by decide)).1 (by decide) (by decide)
  · exact (claims_C5 poolC5 0 (by decide) (by decide)).2.1 rfl
  · exact (claims_C5 poolC5 3 (by decide) (by decide)).2.2 (by decide)

/-- C9: the main-method lookup returns a method only if its name is
`"main"` and its descriptor is `"([Ljava/lang/String;)V"`, and it
returns one exactly when such a method exists in the class's method
list. -/
theorem claims_C9 (c : RL.RuntimeClass) :
    (∀ m, RL.find_main_method c = Except.ok m →
        m ∈ c.methods ∧ m.name = "main" ∧ m.descriptor = "([Ljava/lang/String;)V")
    ∧ ((∃ m, RL.find_main_method c = Except.ok m) ↔
        ∃ m ∈ c.methods, m.name = "main" ∧ m.descriptor = "([Ljava/lang/String;)V") := by
  constructor
  · intro m h
    unfold RL.find_main_method at h
    cases hf : c.methods.find?
        (fun m => m.name == "main" && m.descriptor == "([Ljava/lang/String;)V") with
    | none => rw [hf] at h; exact absurd h (by simp)
    | some m2 =>
      rw [hf] at h
      injection h with h
      subst h
      have hmem := List.mem_of_find?_eq_some hf
      have hp := List.find?_some hf
      simp only [Bool.and_eq_true, beq_iff_eq] at hp
      exact ⟨hmem, hp.1, hp.2⟩
  · constructor
    · rintro ⟨m, h⟩
      unfold RL.find_main_method at h
      cases hf : c.methods.find?
          (fun m => m.name == "main" && m.descriptor == "([Ljava/lang/String;)V") with
      | none => rw [hf] at h; exact absurd h (by simp)
      | some m2 =>
        rw [hf] at h
        injection h with h
        subst h
        have hmem := List.mem_of_find?_eq_some hf
        have hp := List.find?_some hf
        simp only [Bool.and_eq_true, beq_iff_eq] at hp
        exact ⟨_, hmem, hp.1, hp.2⟩
    · rintro ⟨m, hm, h1, h2⟩
      have hsome : (c.methods.find?
          (fun m => m.name == "main" && m.descriptor == "([Ljava/lang/String;)V")).isSome :=
        List.find?_isSome.mpr ⟨m, hm, by simp [h1, h2]⟩
      obtain ⟨m2, hm2⟩ := Option.isSome_iff_exists.mp hsome
      exact ⟨m2, by unfold RL.find_main_method; rw [hm2]⟩

/-- The matching `main` overload for the C9 witness. -/
def mainGoodC9 : RL.Method2 :=
  RL.Method2.mk "main" "([Ljava/lang/String;)V" (RL.Code.mk 1 1 [0xB1])

/-- A `main` overload with a different descriptor for the C9 witness. -/
def mainOtherC9 : RL.Method2 := RL.Method2.mk "main" "()V" (RL.Code.mk 0 0 [])

/-- A class carrying two `main` overloads; only the second matches the
exact descriptor. -/
def classC9 : RL.RuntimeClass :=
  RL.RuntimeClass.mk "Demo" none [mainOtherC9, mainGoodC9]

/-- Witness for C9: on a class with two `main` overloads the lookup
selects exactly the one matching the descriptor. -/
theorem claims_C9_witness :
    RL.find_main_method classC9 = Except.ok mainGoodC9
    ∧ mainGoodC9.name = "main"
    ∧ mainGoodC9.descriptor = "([Ljava/lang/String;)V" := by
  have h := (claims_C9 classC9).1 mainGoodC9 rfl
  exact ⟨rfl, h.2⟩

/-- C10: every `RuntimeClass` produced by `insert_class` has
`super_class = None`: the linker writes the literal `None` and never
resolves a superclass. -/
theorem claims_C10 (classes : RL.ClassTable) (cf : RL.ClassFile)
    (rc : RL.RuntimeClass) (t : RL.ClassTable)
    (h : RL.insert_class classes cf = Except.ok (rc, t)) :
    rc.super_class = none := by
  unfold RL.insert_class at h
  split at h
  · exact absurd h (by simp)
  case _ name_idx heq =>
    split at h
    · exact absurd h (by simp)
    case _ class_name heq2 =>
      split at h
      · exact absurd h (by simp)
      case _ methods heq3 =>
        injection h with h
        injection h with h1 h2
        subst h1
        rfl
    case _ c heq2 hne => exact absurd h (by simp)
  case _ c heq hne => exact absurd h (by simp)

/-- A minimal class file for the C10 witness: pool `[Class{2}, Utf8
"a/b"]`, `this_class = 1`, no methods. -/
def cfC10 : RL.ClassFile :=
  RL.ClassFile.mk [RL.Const.classRef 2, RL.Const.utf8 "a/b"] 1 3 []

/-- The runtime class `insert_class` produces from `cfC10`. -/
def rcC10 : RL.RuntimeClass := RL.RuntimeClass.mk "a/b" none []

/-- Witness for C10 at the concrete class file `cfC10`. -/
theorem claims_C10_witness : rcC10.super_class = none :=
  claims_C10 [] cfC10 rcC10 [("a/b", rcC10)] rfl

/-- The opaque-payload tag set named by the claim (and implemented in
full only by `lib.rs read_const`). -/
def rlOpaqueTags : List Nat := [3, 4, 5, 6, 8, 9, 10, 11, 12, 15, 16, 18]

/-- The fixed payload size (in bytes) `lib.rs read_const` consumes for
each opaque tag: two `u32` for 5/6, one `u16` for 8/16, a `u8` plus a
`u16` for 15, one `u32` for the rest. -/
def rlPayloadSize : Nat → Nat
  | 5 => 8
  | 6 => 8
  | 8 => 2
  | 16 => 2
  | 15 => 3
  | _ => 4

/-- Models `lib.rs read_u8` pops exactly the head byte. -/
theorem RL.read_u8_cons (b : Nat) (s : List Nat) : RL.read_u8 (b :: s) = (b, s) := by
  simp [RL.read_u8, RL.readN, beVal]

/-- C4 counterexample: the claim says every tag in
`{3,4,5,6,8,9,10,11,12,15,16,18}` makes the constant decoder consume its
payload and return an Opaque entry, citing `class_file.rs read_const` —
but that decoder recognizes only 10 and 12, and fails on tag 3 with the
"unimplemented tag" error even though its 4-byte payload is present. -/
theorem claims_C4_cex :
    CF.read_const [3, 0, 0, 0, 42] = Except.error (Err.unimplementedTag 3) := rfl

/-- C4 as amended: `lib.rs read_const` returns `Unimplemented` for every
tag in the set, consuming that tag's fixed payload size, and errors with
the tag value on every tag outside the set and outside `{1, 7}`;
`class_file.rs read_const` does the same only for tags 10 and 12,
erroring on the other members of the set. -/
theorem claims_C4 (t : Nat) (s : List Nat) :
    (t ∈ rlOpaqueTags →
        RL.read_const (t :: s)
          = Except.ok (RL.Const.unimplemented, s.drop (rlPayloadSize t)))
    ∧ ((t = 10 ∨ t = 12) → 4 ≤ s.length →
        CF.read_const (t :: s) = Except.ok (CF.Const.unimplemented, s.drop 4))
    ∧ (t ∈ rlOpaqueTags → t ≠ 10 → t ≠ 12 →
        CF.read_const (t :: s) = Except.error (Err.unimplementedTag t))
    ∧ (t ∉ rlOpaqueTags → t ≠ 1 → t ≠ 7 →
        RL.read_const (t :: s) = Except.error (Err.unimplementedTag t)
        ∧ CF.read_const (t :: s) = Except.error (Err.unimplementedTag t)) := by
  refine ⟨?_, ?_, ?_, ?_⟩
  · intro ht
    fin_cases ht <;>
      simp [RL.read_const, RL.read_u8_cons, RL.read_u8, RL.read_u16, RL.read_u32,
        RL.read_length, RL.readN, beVal, rlPayloadSize, List.drop_drop]
  · intro ht hlen
    rcases s with _ | ⟨b0, s⟩
    · simp at hlen
    rcases s with _ | ⟨b1, s⟩
    · simp at hlen
    rcases s with _ | ⟨b2, s⟩
    · simp at hlen
    rcases s with _ | ⟨b3, s⟩
    · simp at hlen
    rcases ht with rfl | rfl <;> rfl
  · intro ht h10 h12
    fin_cases ht <;>
      first
        | exact absurd rfl h10
        | exact absurd rfl h12
        | rfl
  · intro ht h1 h7
    have hs : t ≠ 3 ∧ t ≠ 4 ∧ t ≠ 5 ∧ t ≠ 6 ∧ t ≠ 8 ∧ t ≠ 9 ∧ t ≠ 10 ∧ t ≠ 11 ∧
        t ≠ 12 ∧ t ≠ 15 ∧ t ≠ 16 ∧ t ≠ 18 := by
      simpa [rlOpaqueTags] using ht
    obtain ⟨h3, h4, h5, h6, h8, h9, h10, h11, h12, h15, h16, h18⟩ := hs
    constructor
    · simp [RL.read_const, RL.read_u8_cons, h1, h3, h4, h5, h6, h7, h8, h9, h10,
        h11, h12, h15, h16, h18]
    · simp [CF.read_const, CF.readU8, h1, h7, h10, h12]

/-- Witness for C4 at concrete tags: 5 (8-byte payload, `lib.rs` only),
10 (4-byte payload, both decoders), 15 (in the set but rejected by
`class_file.rs`), and 2 (outside the set, rejected by both). -/
theorem claims_C4_witness :
    RL.read_const [5, 1, 2, 3, 4, 5, 6, 7, 8, 99]
      = Except.ok (RL.Const.unimplemented, [99])
    ∧ CF.read_const [10, 1, 2, 3, 4, 99] = Except.ok (CF.Const.unimplemented, [99])
    ∧ CF.read_const [15, 1, 2, 3] = Except.error (Err.unimplementedTag 15)
    ∧ RL.read_const [2, 9] = Except.error (Err.unimplementedTag 2)
    ∧ CF.read_const [2, 9] = Except.error (Err.unimplementedTag 2) := by
  refine ⟨?_, ?_, ?_, ?_, ?_⟩
  · exact (claims_C4 5 [1, 2, 3, 4, 5, 6, 7, 8, 99]).1 (by decide)
  · exact (claims_C4 10 [1, 2, 3, 4, 99]).2.1 (Or.inl rfl) (by decide)
  · exact (claims_C4 15 [1, 2, 3]).2.2.1 (by decide) (by decide) (by decide)
  · exact ((claims_C4 2 [9]).2.2.2 (by decide) (by decide) (by decide)).1
  · exact ((claims_C4 2 [9]).2.2.2 (by decide) (by decide) (by decide)).2

/-- C8 counterexample: the claim says the text bytes are interpreted as
*modified* UTF-8, so the two-byte NUL encoding `0xC0 0x80` should decode
successfully — but `String::from_utf8` is standard UTF-8 and rejects the
overlong form; conversely the four-byte sequence `F0 9F 98 80`, which is
not valid modified UTF-8 (modified UTF-8 uses CESU-8 surrogate pairs for
supplementary characters), decodes without error. -/
theorem claims_C8_cex :
    CF.read_const [0x01, 0x00, 0x02, 0xC0, 0x80] = Except.error Err.invalidUtf8
    ∧ CF.read_const [0x01, 0x00, 0x04, 0xF0, 0x9F, 0x98, 0x80]
        = Except.ok (CF.Const.utf8 "😀", []) :=
  ⟨rfl, rfl⟩

/-- C8 as amended: a tag-1 entry reads a `u16` length and exactly that
many bytes, interpreted as *standard* UTF-8 (Rust `String::from_utf8`):
the entry decodes to exactly the decoded text when the bytes are valid
standard UTF-8 and is a fatal error otherwise. -/
theorem claims_C8 (bs s : List Nat) (h : bs.length < 65536) :
    CF.read_const (1 :: (u16be bs.length ++ (bs ++ s)))
      = (match string_from_utf8 bs with
         | some str => Except.ok (CF.Const.utf8 str, s)
         | none => Except.error Err.invalidUtf8) := by
  have h16 := CF.readU16_encode bs.length h (bs ++ s)
  simp [CF.read_const, CF.readU8, h16, CF.read_length, List.take_left, List.drop_left]

/-- Witness for C8: the bytes of `"hi"` decode to the `Utf8` entry
`"hi"`. -/
theorem claims_C8_witness :
    CF.read_const [1, 0, 2, 104, 105] = Except.ok (CF.Const.utf8 "hi", []) := by
  have h := claims_C8 [104, 105] [] (by decide)
  exact h

/-- C6 counterexample: two `Code` payloads that differ only in their
8 exception-table bytes decode to the *same* `Code` value — the decoder
consumes the table but discards it, so it does not "yield an exception
table of exactly exception_table_length entries" as the claim states. -/
theorem claims_C6_cex :
    CF.Code.read_from
        [0, 0, 0, 0, 0, 0, 0, 1, 0xB1, 0, 1, 1, 2, 3, 4, 5, 6, 7, 8, 0, 0]
      = CF.Code.read_from
        [0, 0, 0, 0, 0, 0, 0, 1, 0xB1, 0, 1, 9, 9, 9, 9, 9, 9, 9, 9, 0, 0]
    ∧ CF.Code.read_from
        [0, 0, 0, 0, 0, 0, 0, 1, 0xB1, 0, 1, 1, 2, 3, 4, 5, 6, 7, 8, 0, 0]
      = Except.ok (CF.Code.mk 0 0 [0xB1], []) :=
  ⟨rfl, rfl⟩

/-- C6 as amended: for every successfully decoded `Code` payload, the
bytecode length equals the `code_length` `u32` read at offset 4 of the
payload (after the two `u16` fields); the `8 × exception_table_length`
exception-table bytes are consumed but discarded, so the resulting `Code`
carries no exception table. -/
theorem claims_C6 (s : List Nat) (c : CF.Code) (sf : List Nat)
    (h : CF.Code.read_from s = Except.ok (c, sf)) :
    ∃ clen t, CF.readU32 (s.drop 4) = Except.ok (clen, t) ∧ c.code.length = clen := by
  unfold CF.Code.read_from at h
  cases h1 : CF.readU16 s with
  | error e => rw [h1] at h; simp at h
  | ok r1 =>
    obtain ⟨ms, s1⟩ := r1
    rw [h1] at h; simp only [] at h
    cases h2 : CF.readU16 s1 with
    | error e => rw [h2] at h; simp at h
    | ok r2 =>
      obtain ⟨ml, s2⟩ := r2
      rw [h2] at h; simp only [] at h
      cases h3 : CF.readU32 s2 with
      | error e => rw [h3] at h; simp at h
      | ok r3 =>
        obtain ⟨clen, s3⟩ := r3
        rw [h3] at h; simp only [] at h
        cases h4 : CF.read_length clen s3 with
        | error e => rw [h4] at h; simp at h
        | ok r4 =>
          obtain ⟨bs, s4⟩ := r4
          rw [h4] at h; simp only [] at h
          cases h5 : CF.readU16 s4 with
          | error e => rw [h5] at h; simp at h
          | ok r5 =>
            obtain ⟨exlen, s5⟩ := r5
            rw [h5] at h; simp only [] at h
            cases h6 : CF.read_length (exlen * 8) s5 with
            | error e => rw [h6] at h; simp at h
            | ok r6 =>
              obtain ⟨ex, s6⟩ := r6
              rw [h6] at h; simp only [] at h
              cases h7 : CF.readU16 s6 with
              | error e => rw [h7] at h; simp at h
              | ok r7 =>
                obtain ⟨acnt, s7⟩ := r7
                rw [h7] at h; simp only [] at h
                cases h8 : CF.skipAttributes acnt s7 with
                | error e => rw [h8] at h; simp at h
                | ok s8 =>
                  rw [h8] at h; simp only [] at h
                  injection h with h
                  injection h with hc hs
                  subst hc
                  have hdrop : s2 = s.drop 4 := by
                    rw [CF.readU16_drop h2, CF.readU16_drop h1, List.drop_drop]
                  refine ⟨clen, s3, ?_, ?_⟩
                  · rw [← hdrop]; exact h3
                  · exact (CF.read_length_spec h4).1

/-- Witness for C6 at a concrete payload: max_stack 2, max_locals 3,
code_length 1, bytecode `[0xB1]`, empty exception table, no nested
attributes. -/
theorem claims_C6_witness :
    CF.Code.read_from [0, 2, 0, 3, 0, 0, 0, 1, 0xB1, 0, 0, 0, 0]
      = Except.ok (CF.Code.mk 2 3 [0xB1], [])
    ∧ (CF.Code.mk 2 3 [0xB1]).code.length = 1 := by
  refine ⟨rfl, ?_⟩
  obtain ⟨clen, t, h1, h2⟩ :=
    claims_C6 [0, 2, 0, 3, 0, 0, 0, 1, 0xB1, 0, 0, 0, 0] (CF.Code.mk 2 3 [0xB1]) [] rfl
  have h3 : CF.readU32 (List.drop 4 [0, 2, 0, 3, 0, 0, 0, 1, 0xB1, 0, 0, 0, 0])
      = Except.ok (1, [0xB1, 0, 0, 0, 0]) := rfl
  have h4 := h1.symm.trans h3
  injection h4 with h4
  injection h4 with ha hb
  exact h2.trans ha

/-- Unfolding lemma: the encoding of a cons is the head's encoding
followed by the tail's. -/
theorem RL.encodeAttrs_cons (a : RL.AttrItem) (items : List RL.AttrItem) :
    RL.encodeAttrs (a :: items) = RL.encodeAttr a ++ RL.encodeAttrs items := rfl

/-- C7 counterexample: a method carrying two attributes both named
`"Code"` (pool slot 1 is `Utf8 "Code"`), the first with bytecode
`[0xB1]`, the second with bytecode `[0x00]`.  The loop decodes *both*
and the second overwrites the first, so the resulting `Code` is the
second's `[0x00]`, not the first match `[0xB1]` as the claim states. -/
theorem claims_C7_cex :
    RL.readMethodAttrs [RL.Const.utf8 "Code"] 2 (RL.Code.mk 0 0 [])
        ([0, 1, 0, 0, 0, 1, 0, 0, 0, 0, 0, 0, 0, 1, 0xB1, 0, 0, 0, 0] ++
         [0, 1, 0, 0, 0, 1, 0, 0, 0, 0, 0, 0, 0, 1, 0x00, 0, 0, 0, 0])
      = Except.ok (RL.Code.mk 0 0 [0x00], [])
    ∧ RL.Code.mk 0 0 [0x00] ≠ RL.Code.mk 0 0 [0xB1] :=
  ⟨rfl, by decide⟩

/-- Decoding an encoded `Code` attribute body: the discarded declared
length, max stack, max locals, the bytecode (length-exact), an empty
exception table and an empty nested-attribute list, leaving `rest`. -/
theorem RL.readCodeAttr_encode (dl ms ml : Nat) (cb rest : List Nat)
    (hdl : dl < 4294967296) (hms : ms < 65536) (hml : ml < 65536)
    (hcb : cb.length < 4294967296) :
    RL.readCodeAttr (u32be dl ++ (u16be ms ++ (u16be ml ++ (u32be cb.length ++
        (cb ++ (u16be 0 ++ (u16be 0 ++ rest)))))))
      = (RL.Code.mk ms ml cb, rest) := by
  unfold RL.readCodeAttr
  rw [RL.read_u32_encode dl hdl]
  simp only []
  rw [RL.read_u16_encode ms hms]
  simp only []
  rw [RL.read_u16_encode ml hml]
  simp only []
  rw [RL.read_u32_encode cb.length hcb]
  simp only []
  simp only [RL.read_length]
  rw [RL.readN_exact]
  simp only []
  rw [RL.read_u16_encode 0 (by norm_num)]
  simp only [Nat.zero_mul]
  simp only [RL.readN, List.take_zero, List.drop_zero, Nat.zero_sub,
    List.replicate_zero, List.nil_append]
  rw [RL.read_u16_encode 0 (by norm_num)]
  simp only [RL.skipAttrs]

set_option maxRecDepth 10000 in
set_option maxHeartbeats 8000000 in
/-- C7 as amended: the reader decodes *every* attribute whose
pool-resolved name is `"Code"`, each decode overwriting the method's
running `Code`, so the method ends with the `Code` of the *last* such
attribute (`List.foldl applyAttr`); a method with no `Code`-named
attribute keeps the initial value — `Code` with max_stack 0, max_locals
0 and empty bytecode — and still parses successfully. -/
theorem claims_C7 (items : List RL.AttrItem) (pool : List RL.Const)
    (code0 : RL.Code) (rest : List Nat)
    (hwf : ∀ a ∈ items, RL.attrWF pool a = true) :
    RL.readMethodAttrs pool items.length code0 (RL.encodeAttrs items ++ rest)
      = Except.ok (items.foldl RL.applyAttr code0, rest) := by
  induction items generalizing code0 with
  | nil => simp [RL.encodeAttrs, RL.readMethodAttrs]
  | cons a items ih =>
    have hwa := hwf a (List.mem_cons_self a items)
    have hwrest : ∀ x ∈ items, RL.attrWF pool x = true :=
      fun x hx => hwf x (List.mem_cons_of_mem a hx)
    cases a with
    | generic nidx payload =>
      simp only [RL.attrWF, Bool.and_eq_true, decide_eq_true_eq] at hwa
      obtain ⟨⟨⟨hn1, hn2⟩, hp⟩, hmatch⟩ := hwa
      cases hg : pool.get? (nidx - 1) with
      | none => rw [hg] at hmatch; simp at hmatch
      | some cst =>
        cases cst with
        | classRef i => rw [hg] at hmatch; simp at hmatch
        | unimplemented => rw [hg] at hmatch; simp at hmatch
        | utf8 nm =>
          rw [hg] at hmatch
          simp only [bne_iff_ne, ne_eq] at hmatch
          have hidx : (nidx % 65536 + 65535) % 65536 = nidx - 1 := by omega
          have hg2 : pool[nidx - 1]? = some (RL.Const.utf8 nm) := by
            rw [← List.get?_eq_getElem?]; exact hg
          simp [RL.encodeAttrs_cons, RL.encodeAttr, List.append_assoc,
            RL.readMethodAttrs, RL.read_u16_encode nidx hn2, hidx, hg2, hmatch,
            RL.read_u32_encode payload.length hp, RL.read_length, RL.readN_exact,
            ih code0 hwrest, RL.applyAttr]
    | codeAttr nidx dl ms ml cb =>
      simp only [RL.attrWF, Bool.and_eq_true, decide_eq_true_eq] at hwa
      obtain ⟨⟨⟨⟨⟨⟨hn1, hn2⟩, hdl⟩, hms⟩, hml⟩, hcb⟩, hmatch⟩ := hwa
      cases hg : pool.get? (nidx - 1) with
      | none => rw [hg] at hmatch; simp at hmatch
      | some cst =>
        cases cst with
        | classRef i => rw [hg] at hmatch; simp at hmatch
        | unimplemented => rw [hg] at hmatch; simp at hmatch
        | utf8 nm =>
          rw [hg] at hmatch
          simp only [beq_iff_eq] at hmatch
          subst hmatch
          have hidx : (nidx % 65536 + 65535) % 65536 = nidx - 1 := by omega
          have hg2 : pool[nidx - 1]? = some (RL.Const.utf8 "Code") := by
            rw [← List.get?_eq_getElem?]; exact hg
          simp [RL.encodeAttrs_cons, RL.encodeAttr, List.append_assoc,
            RL.readMethodAttrs, RL.read_u16_encode nidx hn2, hidx, hg2,
            RL.readCodeAttr_encode dl ms ml cb (RL.encodeAttrs items ++ rest)
              hdl hms hml hcb,
            ih (RL.Code.mk ms ml cb) hwrest, RL.applyAttr]

/-- A pool for the C7 witness: slot 1 is `"Foo"`, slot 2 is `"Code"`. -/
def poolC7 : List RL.Const := [RL.Const.utf8 "Foo", RL.Const.utf8 "Code"]

/-- Attributes for the C7 witness: a generic attribute then a `Code`
attribute with max_stack 5, max_locals 6, bytecode `[0xB1]`. -/
def itemsC7 : List RL.AttrItem :=
  [RL.AttrItem.generic 1 [7, 7], RL.AttrItem.codeAttr 2 13 5 6 [0xB1]]

/-- Witness for C7: the attribute loop on the encoded attributes yields
the `Code` attribute's decoded contents and consumes exactly the encoded
bytes. -/
theorem claims_C7_witness :
    RL.readMethodAttrs poolC7 2 (RL.Code.mk 0 0 []) (RL.encodeAttrs itemsC7 ++ [42])
      = Except.ok (RL.Code.mk 5 6 [0xB1], [42]) := by
  have h := claims_C7 itemsC7 poolC7 (RL.Code.mk 0 0 []) [42] (by decide)
  exact h

/-- A class file whose binary name constant is the `/`-separated
`"a/b"`: pool `[Class{2}, Utf8 "a/b"]`, `this_class = 1`. -/
def cfC2 : RL.ClassFile :=
  RL.ClassFile.mk [RL.Const.classRef 2, RL.Const.utf8 "a/b"] 1 0 []

/-- The runtime class `insert_class` produces from `cfC2`. -/
def rcC2 : RL.RuntimeClass := RL.RuntimeClass.mk "a/b" none []

/-- C2: `insert_class` keys the table by the constant-pool string
verbatim — the `/`-separated internal form — with no normalization to the
`.`-separated external form, so the `.`-separated lookup performed on the
command-line name finds nothing while the `/`-separated key is present.
This contradicts the claim (and the repository's own integration test,
which passes a `.`-separated name). -/
theorem claims_C2 :
    RL.insert_class [] cfC2 = Except.ok (rcC2, [("a/b", rcC2)])
    ∧ List.lookup "a.b" [("a/b", rcC2)] = none
    ∧ (List.lookup "a/b" [("a/b", rcC2)]).isSome = true :=
  ⟨rfl, rfl, rfl⟩

example : CF.readU8 [0x10, 0x20] = Except.ok (0x10, [0x20]) := rfl
example : CF.readU16 [0x10, 0x20, 0x30] = Except.ok (0x1020, [0x30]) := rfl
example : CF.readU32 [0x10, 0x20, 0x30, 0x40, 0x50] = Except.ok (0x10203040, [0x50]) := rfl
example : CF.read_length 3 [1, 2, 3, 4] = Except.ok ([1, 2, 3], [4]) := rfl
example : CF.read_length 3 [] = Except.error Err.truncated := rfl
example : string_from_utf8 [104, 105] = some "hi" := rfl
example : string_from_utf8 [0xC0, 0x80] = none := rfl
example : string_from_utf8 [0xF0, 0x9F, 0x98, 0x80] = some "😀" := rfl
example : CF.read_const [0x01, 0x00, 0x0B, 104, 101, 108, 108, 111, 32, 119, 111, 114, 108, 100]
    = Except.ok (CF.Const.utf8 "hello world", []) := rfl
example : CF.read_const [0x07, 0x23, 0x45] = Except.ok (CF.Const.classRef 0x2345, []) := rfl
example : CF.read_const [0x01, 0x00, 0x02] = Except.error Err.truncated := rfl
example : (CF.ConstPool.mk [CF.Const.unimplemented]).get_const 0
    = Except.error (Err.poolIndex 0) := rfl
example : (CF.ConstPool.mk [CF.Const.unimplemented]).get_const 1
    = Except.ok CF.Const.unimplemented := rfl
example : CF.Code.read_from [0, 2, 0, 3, 0, 0, 0, 1, 0xB1, 0, 0, 0, 0]
    = Except.ok (CF.Code.mk 2 3 [0xB1], []) := rfl
